import Mathlib

/-!
Verification of the ANS expense ETL pipeline.

This file gives a shallow embedding of the transformation core of the
repository (an ETL pipeline over Brazilian health-insurance regulator data)
and proves properties of it.  The embedded functions are translated from:

* src/etl/processing.py  — filtering, period tagging, consolidation
  (process_data, standardize_columns);
* src/etl/enrichment.py  — key coercion, CNPJ validation, left join with
  sentinel fill, positive-amount filter, group statistics
  (validate_cnpj, run_enrichment_pipeline);
* src/etl/pipeline_sql.py — string key normalization (run_pipeline);
* src/backend/main.py    — string key cleanup, aggregate statistics with an
  inner join (load_data, get_statistics).

Numeric amounts are modelled with the rationals (the Python code uses
float64; every value appearing in the claims is exactly representable and
no rounding is involved in the properties proved here), and the standard
deviation is a real number obtained by Real.sqrt.
-/

namespace AnsEtl

/-! ### Character and substring helpers

Embeddings of the Python primitives str.strip, str.upper, substring
containment (the in operator and pandas str.contains on literal
alternations), and the digit class of the regexes used in the code. -/

/-- Whitespace test used by str.strip: the code only ever meets spaces,
tabs, carriage returns and newlines around identifiers. -/
def isWsChar (c : Char) : Bool :=
  if c = ' ' ∨ c = '\t' ∨ c = '\n' ∨ c = '\r' then true else false

/-- Embedding of Python str.strip on a character list: drop whitespace from
both ends. -/
def trimChars (l : List Char) : List Char :=
  ((l.dropWhile isWsChar).reverse.dropWhile isWsChar).reverse

/-- Embedding of the regex replacement of a trailing literal ".0" by the
empty string (the pattern anchored at the end of the string, as in
pipeline_sql.py line 55 and backend/main.py lines 90 and 93): when the
string ends in the two characters dot-zero they are removed, otherwise the
string is unchanged. -/
def stripDot0 (l : List Char) : List Char :=
  if l.reverse.take 2 = ['0', '.'] then (l.reverse.drop 2).reverse else l

/-- Test whether the second list starts with the first list. -/
def leadsWith : List Char → List Char → Bool
  | [], _ => true
  | _ :: _, [] => false
  | a :: as, b :: bs => a == b && leadsWith as bs

/-- Test whether the pattern occurs as a contiguous run inside the
haystack; embedding of the Python in operator on strings. -/
def hasSubL (pat : List Char) : List Char → Bool
  | [] => leadsWith pat []
  | c :: rest => leadsWith pat (c :: rest) || hasSubL pat rest

/-- String-level substring test. -/
def hasSub (s pat : String) : Bool := hasSubL pat.toList s.toList

/-- Embedding of str.upper (the ASCII uppercasing relevant to the keyword
filter of processing.py). -/
def upperStr (s : String) : String := String.mk (s.toList.map Char.toUpper)

/-- Value of a list of decimal digit characters. -/
def digitsToNat (l : List Char) : Nat :=
  l.foldl (fun acc c => 10 * acc + (c.toNat - '0'.toNat)) 0

/-- Test that every character of the list is a decimal digit. -/
def allDigits (l : List Char) : Bool := l.all Char.isDigit

/-! ### Key normalization (src/etl/pipeline_sql.py lines 55 and 81,
src/etl/enrichment.py lines 123 and 124)

The SQL pipeline normalizes registry identifiers as strings:
astype(str).str.strip().str.replace on the trailing dot-zero pattern.
Under astype(str) a missing value (NaN) becomes the literal string "nan";
we model a nullable cell as an Option String.  The enrichment pipeline
instead coerces both join keys with pd.to_numeric(errors = coerce), which
parses the cell as a number and turns anything unparseable into NaN
(modelled as none). -/

/-- Embedding of pandas astype(str) on a nullable string cell: a missing
value (NaN) prints as the literal string "nan". -/
def astypeStr : Option String → String
  | none => "nan"
  | some s => s

/-- String-level registry key cleanup of pipeline_sql.py line 55: strip
surrounding whitespace, then drop one trailing ".0". -/
def normKeyStr (s : String) : String :=
  String.mk (stripDot0 (trimChars s.toList))

/-- Registry key normalization of the SQL pipeline applied to a nullable
cell: astype(str) followed by strip and trailing ".0" removal. -/
def normKeySql (x : Option String) : String := normKeyStr (astypeStr x)

/-- Embedding of pd.to_numeric(errors = coerce) on a registry identifier
cell, as applied in enrichment.py lines 123 and 124.  Registry identifiers
are decimal integer literals, so the embedding parses an optionally
whitespace-padded run of digits to its numeric value; a missing cell or
anything that is not such a literal coerces to NaN (none).  The numeric
value forgets leading zeros, exactly as the float64 conversion in the code
does. -/
def toNumericKey : Option String → Option Nat
  | none => none
  | some s =>
    let t := trimChars s.toList
    if !t.isEmpty && allDigits t then some (digitsToNat t) else none

/-! ### Tax-ID validation (src/etl/enrichment.py lines 52 to 55) -/

/-- Embedding of validate_cnpj: a missing value is invalid
(pd.isna guard), otherwise all non-digit characters are removed
(re.sub on the non-digit class) and the result is valid exactly when
fourteen digits remain. -/
def validate_cnpj : Option String → Bool
  | none => false
  | some s => (s.toList.filter Char.isDigit).length == 14

/-! ### General list lemmas used by several components -/

/-- Embedding of pandas drop_duplicates with the default keep-first policy
(processing.py line 122, pipeline_sql.py line 62 uses the same policy on a
key subset): keep the first occurrence of each element, preserving order. -/
def dedupFirst {α : Type} [DecidableEq α] : List α → List α
  | [] => []
  | a :: l => a :: (dedupFirst l).filter (fun b => decide (b ≠ a))

theorem mem_dedupFirst {α : Type} [DecidableEq α] (a : α) (l : List α) :
    a ∈ dedupFirst l ↔ a ∈ l := by
  induction l with
  | nil => rfl
  | cons x l ih =>
    rw [dedupFirst, List.mem_cons, List.mem_filter, ih, List.mem_cons]
    by_cases hax : a = x
    · simp [hax]
    · simp [hax]

theorem nodup_dedupFirst {α : Type} [DecidableEq α] (l : List α) :
    (dedupFirst l).Nodup := by
  induction l with
  | nil => exact List.nodup_nil
  | cons x l ih =>
    rw [dedupFirst]
    refine List.Nodup.cons ?_ (List.Nodup.filter _ ih)
    rw [List.mem_filter]
    simp

theorem dropWhile_eq_self_of_none {p : Char → Bool} (l : List Char)
    (h : ∀ c ∈ l, p c = false) : l.dropWhile p = l := by
  cases l with
  | nil => rfl
  | cons a l => simp [List.dropWhile, h a (by simp)]

theorem dropWhile_append_all {p : Char → Bool} (l1 l2 : List Char)
    (h : ∀ c ∈ l1, p c = true) : (l1 ++ l2).dropWhile p = l2.dropWhile p := by
  induction l1 with
  | nil => rfl
  | cons a l ih =>
    rw [List.cons_append]
    simp only [List.dropWhile, h a (List.mem_cons_self a l)]
    exact ih (fun c hc => h c (List.mem_cons_of_mem a hc))

theorem dropWhile_nil_of_all {p : Char → Bool} (l : List Char)
    (h : ∀ c ∈ l, p c = true) : l.dropWhile p = [] := by
  have h2 := dropWhile_append_all l [] h
  simpa using h2

theorem trimChars_eq_self (l : List Char) (h : ∀ c ∈ l, isWsChar c = false) :
    trimChars l = l := by
  unfold trimChars
  rw [dropWhile_eq_self_of_none l h, dropWhile_eq_self_of_none _ (by
    intro c hc
    exact h c (by simpa using hc)), List.reverse_reverse]

theorem trimChars_pad (p q d : List Char)
    (hp : ∀ c ∈ p, isWsChar c = true) (hq : ∀ c ∈ q, isWsChar c = true)
    (hd : ∀ c ∈ d, isWsChar c = false) :
    trimChars (p ++ d ++ q) = d := by
  unfold trimChars
  rw [List.append_assoc, dropWhile_append_all p (d ++ q) hp]
  cases d with
  | nil =>
    rw [List.nil_append, dropWhile_nil_of_all q hq]
    rfl
  | cons c d2 =>
    have hc : isWsChar c = false := hd c (List.mem_cons_self c d2)
    rw [List.cons_append]
    have h1 : (c :: (d2 ++ q)).dropWhile isWsChar = c :: (d2 ++ q) := by
      simp [List.dropWhile, hc]
    rw [h1, ← List.cons_append, List.reverse_append,
      dropWhile_append_all _ _ (fun c2 hc2 => hq c2 (List.mem_reverse.mp hc2)),
      dropWhile_eq_self_of_none _ (fun c2 hc2 => hd c2 (List.mem_reverse.mp hc2)),
      List.reverse_reverse]

theorem stripDot0_of_no_dot (l : List Char) (h : '.' ∉ l) : stripDot0 l = l := by
  unfold stripDot0
  rw [if_neg]
  intro heq
  apply h
  rw [← List.mem_reverse]
  have hm : '.' ∈ l.reverse.take 2 := by rw [heq]; simp
  exact List.mem_of_mem_take hm

theorem stripDot0_append_dot0 (l : List Char) :
    stripDot0 (l ++ ['.', '0']) = l := by
  unfold stripDot0
  rw [List.reverse_append]
  simp

theorem mk_toList (s : String) : String.mk s.toList = s := by
  cases s
  rfl

theorem toList_append (s t : String) : (s ++ t).toList = s.toList ++ t.toList := by
  cases s
  cases t
  rfl

theorem isWsChar_false_of_digit (c : Char) (h : c.isDigit = true) :
    isWsChar c = false := by
  unfold isWsChar
  split
  · rename_i hw
    rcases hw with h1 | h1 | h1 | h1 <;> subst h1 <;> exact absurd h (by decide)
  · rfl

theorem not_dot_of_digit (c : Char) (h : c.isDigit = true) : c ≠ '.' := by
  intro he
  subst he
  exact absurd h (by decide)

/-! ### Record filtering and period tagging
(src/etl/processing.py lines 82 to 108) -/

/-- Raw accounting row after column standardization, with the fields the
filter and classifier read.  The description cell is nullable (pandas NaN
is modelled as none). -/
structure RawRow where
  registro : String
  descricao : Option String
  valor : ℚ
  deriving DecidableEq

/-- Row predicate of processing.py line 85: pandas
str.contains on the alternation of the literals EVENTOS and SINISTRO with
case = False and na = False, so a missing description yields false and an
uppercase copy of the description is searched for either literal. -/
def keepRow : Option String → Bool
  | none => false
  | some s => hasSub (upperStr s) "EVENTOS" || hasSub (upperStr s) "SINISTRO"

/-- Batch-level filter of processing.py lines 83 to 108: when the
standardized batch has a Descricao column the rows are filtered by
keepRow; when the column is missing the whole batch is skipped with a
warning (modelled by none) and no exception escapes. -/
def filterEventos (hasDescCol : Bool) (rows : List RawRow) : Option (List RawRow) :=
  if hasDescCol then some (rows.filter (fun r => keepRow r.descricao)) else none

/-- Year derivation of processing.py lines 94 to 97: the year is 2025 when
the file name contains the substring 2025 and otherwise falls back to the
constant 2023. -/
def deriveAno (fname : String) : Int :=
  if hasSub fname "2025" then 2025 else 2023

/-- Quarter derivation of processing.py lines 100 to 104: the first of the
substrings 1T, 2T, 3T, 4T found in the file name, and the explicit marker
UNK when none occurs. -/
def deriveTrimestre (fname : String) : String :=
  if hasSub fname "1T" then "1T"
  else if hasSub fname "2T" then "2T"
  else if hasSub fname "3T" then "3T"
  else if hasSub fname "4T" then "4T"
  else "UNK"

/-- Classified expense row carrying the tagged period. -/
structure ExpenseRow where
  registro : String
  descricao : Option String
  valor : ℚ
  ano : Int
  trimestre : String
  deriving DecidableEq

/-- Period tagging of processing.py lines 89 to 104: every filtered row of
a file receives the year and quarter derived from that file name; no row
is dropped by the tagging itself. -/
def tagPeriod (fname : String) (rows : List RawRow) : List ExpenseRow :=
  rows.map (fun r =>
    ⟨r.registro, r.descricao, r.valor, deriveAno fname, deriveTrimestre fname⟩)

/-- Per-file classification: keyword filter followed by period tagging;
none when the description column is missing and the file is skipped. -/
def classifyFile (fname : String) (hasDescCol : Bool) (rows : List RawRow) :
    Option (List ExpenseRow) :=
  (filterEventos hasDescCol rows).map (tagPeriod fname)

/-! ### Consolidation (src/etl/processing.py lines 113 to 128) -/

/-- Embedding of the consolidation stage: concatenate the classified
batches in submission order (pd.concat), remove fully identical duplicate
rows keeping the first occurrence (drop_duplicates), then drop the rows
whose amount is exactly zero (the ValorDespesas not-equal-zero filter of
line 128). -/
def consolidate (batches : List (List ExpenseRow)) : List ExpenseRow :=
  (dedupFirst batches.flatten).filter (fun r => decide (r.valor ≠ 0))

theorem mem_consolidate (r : ExpenseRow) (bs : List (List ExpenseRow)) :
    r ∈ consolidate bs ↔ r ∈ bs.flatten ∧ r.valor ≠ 0 := by
  unfold consolidate
  rw [List.mem_filter, mem_dedupFirst]
  simp

/-! ### Enrichment join, validation and aggregation
(src/etl/enrichment.py lines 126 to 157) -/

/-- Financial row entering the enrichment join, after the key coercion of
line 123: the join key is the numeric value produced by to_numeric, with
none standing for NaN. -/
structure FinRow where
  key : Option Nat
  valor : ℚ
  deriving DecidableEq

/-- Registry row entering the enrichment join, after the key coercion of
line 124; the attribute cells are nullable. -/
structure CadRow where
  key : Option Nat
  cnpj : Option String
  razao : Option String
  uf : Option String
  deriving DecidableEq

/-- Enriched row after the sentinel fill of lines 137 to 140: RazaoSocial
is the matched registry name or the sentinel Desconhecido, CNPJ is the
matched tax id or the sentinel fourteen-zero string. -/
structure EnrichedRow where
  key : Option Nat
  valor : ℚ
  razaoSocial : String
  cnpj : String
  uf : Option String
  deriving DecidableEq

/-- Build one output row of the left merge from a financial row and its
optional registry match, folding in the fillna sentinels of lines 138 and
140. -/
def enrichRow (f : FinRow) (c : Option CadRow) : EnrichedRow :=
  { key := f.key
    valor := f.valor
    razaoSocial := (c.bind (fun x => x.razao)).getD "Desconhecido"
    cnpj := (c.bind (fun x => x.cnpj)).getD "00000000000000"
    uf := c.bind (fun x => x.uf) }

/-- Embedding of pd.merge(df_fin, df_cad, on = RegistroANS, how = left) at
line 132 composed with the sentinel fill: every financial row is retained;
a row with at least one key-equal registry row produces one output row per
match (pandas fans out on duplicate right keys), and a row with no match
is kept once with null registry attributes, which the fill turns into the
sentinels.  Pandas merge matches equal keys including NaN against NaN (the
factorized join treats NaN as a value), which Option equality reflects. -/
def leftMerge (fin : List FinRow) (cad : List CadRow) : List EnrichedRow :=
  fin.flatMap (fun f =>
    let ms := cad.filter (fun c => decide (c.key = f.key))
    if ms.isEmpty then [enrichRow f none] else ms.map (fun c => enrichRow f (some c)))

/-- Positive-amount filter of line 145: only rows with a strictly positive
amount survive into the aggregation input. -/
def filterPositive (rows : List EnrichedRow) : List EnrichedRow :=
  rows.filter (fun r => decide (0 < r.valor))

/-- Group total of the aggregation at lines 150 to 154 (the sum rule). -/
def totalAmount (xs : List ℚ) : ℚ := xs.sum

/-- Group mean of the aggregation (the mean rule). -/
def meanAmount (xs : List ℚ) : ℚ := xs.sum / xs.length

/-- Sample variance underlying the std rule: pandas std uses the
Bessel-corrected divisor of the count less one.  For a single-member group
pandas produces NaN and line 155 replaces it with zero; the embedding
folds that fillna into the definition, and the empty group never occurs
because groupby only forms nonempty groups. -/
def sampleVar (xs : List ℚ) : ℚ :=
  if xs.length ≤ 1 then 0
  else (xs.map (fun x => (x - meanAmount xs) ^ 2)).sum / ((xs.length : ℚ) - 1)

/-- Group standard deviation: the square root of the sample variance, with
the single-member group mapped to zero as above. -/
noncomputable def stdDevAmount (xs : List ℚ) : ℝ := Real.sqrt (sampleVar xs)

/-! ### Backend statistics (src/backend/main.py lines 195 to 205)

The backend works on the string-keyed datasets produced by load_data. -/

/-- Expense row of the backend dataset (RegistroANS already cleaned to a
string key by load_data). -/
structure BackExpRow where
  registro : String
  valor : ℚ
  deriving DecidableEq

/-- Operator row of the backend dataset. -/
structure OpRow where
  registro : String
  razao : String
  uf : String
  deriving DecidableEq

/-- Row of the merged statistics table. -/
structure StatRow where
  registro : String
  total : ℚ
  razao : String
  uf : String
  deriving DecidableEq

/-- Embedding of groupby(RegistroANS).sum() at line 196: one pair per
distinct key with the sum of the amounts of that key.  Pandas emits the
groups in sorted key order; the embedding keeps first-occurrence order,
which carries the same pairs, and the properties proved here depend only
on which pairs occur. -/
def aggPairs (exp : List BackExpRow) : List (String × ℚ) :=
  (dedupFirst (exp.map (fun e => e.registro))).map
    (fun k => (k, ((exp.filter (fun e => decide (e.registro = k))).map (fun e => e.valor)).sum))

/-- Embedding of pd.merge(agg, operators, on = RegistroANS, how = inner)
at line 199: a grouped total survives only paired with the key-equal
operator rows; groups whose key occurs in no operator row are dropped. -/
def statRows (exp : List BackExpRow) (ops : List OpRow) : List StatRow :=
  (aggPairs exp).flatMap (fun p =>
    (ops.filter (fun o => decide (o.registro = p.1))).map (fun o => ⟨p.1, p.2, o.razao, o.uf⟩))

/-! ### Ranking (src/etl/enrichment.py line 157, src/backend/main.py
lines 202 and 205) -/

/-- Aggregate group as seen by the ranking step: a group key and the
total expense amount of the group. -/
structure AggGroup where
  groupKey : String
  total : ℚ
  deriving DecidableEq

/-- The list is weakly ordered by descending total. -/
def SortedByTotalDesc (l : List AggGroup) : Prop :=
  l.Sorted (fun a b => b.total ≤ a.total)

/-- Embedding of sort_values(by = total, ascending = False) with the
pandas default unstable quicksort: the source determines that the output
is a permutation of the input weakly ordered by descending total, and
nothing more — in particular it does not determine the relative order of
groups with equal totals. -/
def SortValuesDesc (inp out : List AggGroup) : Prop :=
  inp.Perm out ∧ SortedByTotalDesc out

/-- Lexicographic order on character lists, used to state the ascending
group-key order of the claim in a directly computable form. -/
def lexLe : List Char → List Char → Bool
  | [], _ => true
  | _ :: _, [] => false
  | a :: as, b :: bs => decide (a < b) || (a == b && lexLe as bs)

/-- Property claimed by the specification for the ranked output: any two
groups with equal totals appear in ascending group-key order
(lexicographic order on the key strings). -/
def TiesAscending (l : List AggGroup) : Prop :=
  l.Pairwise (fun a b => a.total = b.total → lexLe a.groupKey.toList b.groupKey.toList = true)

/-! ## Claim theorems -/

/-- C1, counterexample.  The claim asserts that registry-identifier
normalization preserves leading zeros and compares identifiers as
zero-padded strings, never as integers, and that null input normalizes to
the empty string.  The enrichment pipeline (enrichment.py lines 123 and
124) instead coerces both join keys with to_numeric, under which the two
distinct zero-padded identifiers 00123 and 123 collapse to the same
numeric key; and the string path (pipeline_sql.py line 55) turns a null
cell into the literal string nan, not the empty string. -/
theorem c1_counterexample :
    toNumericKey (some "00123") = toNumericKey (some "123") ∧
    ("00123" : String) ≠ "123" ∧
    normKeySql none ≠ "" := by
  refine ⟨by decide, by decide, by decide⟩

/-- C1, amended.  The string-level normalization of the SQL pipeline
strips leading and trailing whitespace and one trailing dot-zero suffix
without touching internal digits or leading zeros: it is the identity on
digit strings, removes an appended ".0", maps a digit identifier padded
with whitespace on either side to the bare identifier, and maps the empty
cell to itself and the null cell to the string nan (which, not being a
digit string, matches no registry key).  The enrichment pipeline instead
coerces keys with to_numeric, mapping null and unparseable cells to NaN
and digit strings, whitespace-padded or not, to their numeric value. -/
theorem c1_key_normalization :
    (∀ s : String, allDigits s.toList = true → normKeySql (some s) = s) ∧
    (∀ s : String, allDigits s.toList = true → normKeySql (some (s ++ ".0")) = s) ∧
    (∀ p q s : String,
      (∀ c ∈ p.toList, isWsChar c = true) → (∀ c ∈ q.toList, isWsChar c = true) →
      allDigits s.toList = true → normKeySql (some (p ++ s ++ q)) = s) ∧
    normKeySql (some "") = "" ∧
    normKeySql none = "nan" ∧
    toNumericKey none = none ∧
    toNumericKey (some "abc") = none ∧
    toNumericKey (some " 123 ") = some 123 := by
  refine ⟨?_, ?_, ?_, by decide, by decide, rfl, by decide, by decide⟩
  · intro s hd
    unfold normKeySql astypeStr normKeyStr
    have hws : ∀ c ∈ s.toList, isWsChar c = false := by
      intro c hc
      exact isWsChar_false_of_digit c (List.all_eq_true.mp hd c hc)
    rw [trimChars_eq_self _ hws, stripDot0_of_no_dot, mk_toList]
    intro hdot
    exact absurd (List.all_eq_true.mp hd '.' hdot) (by decide)
  · intro s hd
    unfold normKeySql astypeStr normKeyStr
    rw [toList_append]
    have hdots : (".0" : String).toList = ['.', '0'] := by decide
    rw [hdots]
    have hws : ∀ c ∈ s.toList ++ ['.', '0'], isWsChar c = false := by
      intro c hc
      rcases List.mem_append.mp hc with h | h
      · exact isWsChar_false_of_digit c (List.all_eq_true.mp hd c h)
      · rcases (by simpa using h : c = '.' ∨ c = '0') with h1 | h1 <;>
          subst h1 <;> decide
    rw [trimChars_eq_self _ hws, stripDot0_append_dot0, mk_toList]
  · intro p q s hp hq hd
    unfold normKeySql astypeStr normKeyStr
    rw [toList_append, toList_append,
      trimChars_pad p.toList q.toList s.toList hp hq
        (fun c hc => isWsChar_false_of_digit c (List.all_eq_true.mp hd c hc)),
      stripDot0_of_no_dot _ (fun hdot =>
        absurd (List.all_eq_true.mp hd '.' hdot) (by decide)),
      mk_toList]

/-- C1, witness for the amended theorem at concrete inputs, including a
whitespace-padded identifier whose padding is stripped while its leading
zeros survive. -/
theorem c1_key_normalization_witness :
    normKeySql (some "007") = "007" ∧
    normKeySql (some "456.0") = "456" ∧
    normKeySql (some (" " ++ "00123" ++ "  ")) = "00123" := by
  refine ⟨?_, ?_, ?_⟩
  · exact c1_key_normalization.1 "007" (by decide)
  · exact c1_key_normalization.2.1 "456" (by decide)
  · exact c1_key_normalization.2.2.1 " " "  " "00123" (by decide) (by decide) (by decide)

/-- C8: the tax-ID validity predicate of enrichment.py lines 52 to 55
returns true exactly when the digit characters remaining after dropping
every non-digit number fourteen, returns false for a null cell without
throwing, accepts the formatted fourteen-digit example and rejects the
three-digit example. -/
theorem c8_valid_tax_id :
    (∀ s : String, validate_cnpj (some s) = true ↔
      (s.toList.filter Char.isDigit).length = 14) ∧
    validate_cnpj none = false ∧
    validate_cnpj (some "12.345.678/0001-99") = true ∧
    validate_cnpj (some "123") = false := by
  refine ⟨?_, rfl, by decide, by decide⟩
  intro s
  unfold validate_cnpj
  simp

/-- Sample row whose description carries the EVENTOS keyword in mixed
case. -/
def c5RowE : RawRow := ⟨"1", some "Despesas com Eventos Medicos", 50⟩

/-- Sample row whose description carries no expense keyword. -/
def c5RowO : RawRow := ⟨"2", some "OUTRAS PROVISOES", 30⟩

/-- C5: in the filter of processing.py lines 82 to 108 a row survives
exactly when its description cell case-insensitively contains EVENTOS or
SINISTRO (the pandas str.contains alternation with case and na set to
False), a missing description cell fails the filter, concrete rows behave
as the keyword set dictates, and a batch without a description column is
skipped wholesale (the none result standing for the logged warning), no
exception being raised anywhere since all the functions are total. -/
theorem c5_keyword_filter :
    (∀ rows : List RawRow, filterEventos false rows = none) ∧
    (∀ rows out : List RawRow, filterEventos true rows = some out →
      ∀ r : RawRow, r ∈ out ↔ r ∈ rows ∧ keepRow r.descricao = true) ∧
    keepRow none = false ∧
    keepRow (some "eventos x") = true ∧
    keepRow (some "SINISTROS CONHECIDOS") = true ∧
    keepRow (some "OUTRAS PROVISOES") = false := by
  refine ⟨fun rows => rfl, ?_, rfl, by decide, by decide, by decide⟩
  intro rows out h r
  unfold filterEventos at h
  simp only [if_true] at h
  cases h
  rw [List.mem_filter]

/-- C5, witness: the batch-skip case and the row filter applied at
concrete inputs. -/
theorem c5_keyword_filter_witness :
    filterEventos false [c5RowE, c5RowO] = none ∧
    (c5RowE ∈ [c5RowE] ↔ c5RowE ∈ [c5RowE, c5RowO] ∧ keepRow c5RowE.descricao = true) := by
  constructor
  · exact c5_keyword_filter.1 [c5RowE, c5RowO]
  · exact c5_keyword_filter.2.1 [c5RowE, c5RowO] [c5RowE] (by decide) c5RowE

/-- C4, counterexample.  The claim says that when neither the file name
nor a date column yields a period the record is tagged with an explicit
unknown period rather than a guessed year or quarter.  For a file name
carrying no quarter token and no year token the code of processing.py
lines 94 to 104 does tag the quarter UNK, but assigns the concrete
fallback year 2023 instead of an unknown marker; the derivation reads
only the file name, no date column is ever consulted. -/
theorem c4_counterexample :
    deriveAno "consolidado_despesas.csv" = 2023 ∧
    deriveTrimestre "consolidado_despesas.csv" = "UNK" := by
  exact ⟨by decide, by decide⟩

/-- C4, amended.  The quarter is derived from the file name alone: it is
UNK exactly when none of the four quarter tokens occurs, and the year is
2025 when the file name contains 2025 and otherwise the guessed constant
2023 (never an unknown marker, and with no date-column fallback); the
period tagging itself drops no record, so unknown-quarter records are
retained. -/
theorem c4_period_derivation :
    (∀ f : String, deriveTrimestre f = "UNK" ↔
      (hasSub f "1T" = false ∧ hasSub f "2T" = false ∧
       hasSub f "3T" = false ∧ hasSub f "4T" = false)) ∧
    (∀ f : String, deriveAno f = 2025 ↔ hasSub f "2025" = true) ∧
    (∀ f : String, deriveAno f = 2025 ∨ deriveAno f = 2023) ∧
    (∀ (f : String) (rows : List RawRow), (tagPeriod f rows).length = rows.length) := by
  refine ⟨?_, ?_, ?_, ?_⟩
  · intro f
    unfold deriveTrimestre
    by_cases h1 : hasSub f "1T" <;> by_cases h2 : hasSub f "2T" <;>
      by_cases h3 : hasSub f "3T" <;> by_cases h4 : hasSub f "4T" <;>
      simp [h1, h2, h3, h4]
  · intro f
    unfold deriveAno
    by_cases h : hasSub f "2025" <;> simp [h]
  · intro f
    unfold deriveAno
    by_cases h : hasSub f "2025" <;> simp [h]
  · intro f rows
    unfold tagPeriod
    rw [List.length_map]

/-- Row with amount exactly zero, identical in both submitted batches. -/
def c6ZeroDup : ExpenseRow := ⟨"7", some "EVENTOS Z", 0, 2025, "1T"⟩

/-- Row with nonzero amount, identical in both submitted batches. -/
def c6FiveDup : ExpenseRow := ⟨"8", some "EVENTOS W", 5, 2025, "1T"⟩

/-- C6, counterexample.  The claim says a row present identically in both
batches appears exactly once in the consolidated output; a row whose
amount is exactly zero is dropped by the zero filter of processing.py
line 128, so it appears zero times, not once. -/
theorem c6_zero_duplicate_counterexample :
    c6ZeroDup ∈ [c6ZeroDup] ∧
    (consolidate [[c6ZeroDup], [c6ZeroDup]]).count c6ZeroDup = 0 := by
  exact ⟨by simp, by decide⟩

/-- C6, amended: consolidation is order-independent with respect to the
surviving set — swapping the two batches, and more generally permuting
the batch list, leaves the set of output rows unchanged — and a row
present identically in both batches appears exactly once in the output
provided its amount is nonzero (a zero-amount duplicate is dropped
entirely by the zero filter). -/
theorem c6_consolidate_order_independent :
    (∀ a b : List ExpenseRow,
      (consolidate [a, b]).toFinset = (consolidate [b, a]).toFinset) ∧
    (∀ (a b : List ExpenseRow) (r : ExpenseRow),
      r ∈ a → r ∈ b → r.valor ≠ 0 → (consolidate [a, b]).count r = 1) ∧
    (∀ bs1 bs2 : List (List ExpenseRow), bs1.Perm bs2 →
      (consolidate bs1).toFinset = (consolidate bs2).toFinset) := by
  have h3 : ∀ bs1 bs2 : List (List ExpenseRow), bs1.Perm bs2 →
      (consolidate bs1).toFinset = (consolidate bs2).toFinset := by
    intro bs1 bs2 hperm
    ext r
    simp only [List.mem_toFinset, mem_consolidate, List.mem_flatten]
    constructor
    · rintro ⟨⟨l, hl, hr⟩, hv⟩
      exact ⟨⟨l, hperm.mem_iff.mp hl, hr⟩, hv⟩
    · rintro ⟨⟨l, hl, hr⟩, hv⟩
      exact ⟨⟨l, hperm.mem_iff.mpr hl, hr⟩, hv⟩
  refine ⟨fun a b => h3 [a, b] [b, a] (List.Perm.swap b a []), ?_, h3⟩
  intro a b r ha hb hv
  have hnodup : (consolidate [a, b]).Nodup :=
    List.Nodup.filter _ (nodup_dedupFirst _)
  have hmem : r ∈ consolidate [a, b] := by
    rw [mem_consolidate]
    exact ⟨by simp [List.mem_flatten]; exact Or.inl ha, hv⟩
  exact List.count_eq_one_of_mem hnodup hmem

/-- C6, witness: a nonzero row present in both batches survives exactly
once. -/
theorem c6_consolidate_order_independent_witness :
    (consolidate [[c6FiveDup], [c6FiveDup]]).count c6FiveDup = 1 := by
  exact c6_consolidate_order_independent.2.1 [c6FiveDup] [c6FiveDup] c6FiveDup
    (by simp) (by simp) (by decide)

/-- Row with amount exactly zero used by the C7 example. -/
def c7ZeroRow : ExpenseRow := ⟨"100", some "EVENTOS A", 0, 2025, "1T"⟩

/-- Row with amount five used by the C7 example. -/
def c7FiveRow : ExpenseRow := ⟨"101", some "EVENTOS B", 5, 2025, "1T"⟩

/-- C7: every row of the consolidated output has nonzero amount (the
filter of processing.py line 128 removes exact zeros), and the two-row
input whose amounts are zero and five consolidates to exactly the
amount-five row. -/
theorem c7_nonzero_invariant :
    (∀ (bs : List (List ExpenseRow)) (r : ExpenseRow),
      r ∈ consolidate bs → r.valor ≠ 0) ∧
    consolidate [[c7ZeroRow, c7FiveRow]] = [c7FiveRow] := by
  constructor
  · intro bs r hr
    exact ((mem_consolidate r bs).mp hr).2
  · decide

/-- C7, witness: the nonzero invariant applied to a concrete consolidated
row. -/
theorem c7_nonzero_invariant_witness : c7FiveRow.valor ≠ 0 := by
  exact c7_nonzero_invariant.1 [[c7ZeroRow, c7FiveRow]] c7FiveRow (by decide)

/-- C2: a financial row whose coerced key equals the key of no registry
row is retained by the left merge of enrichment.py line 132 as one output
row carrying the sentinel legal name Desconhecido and the sentinel
fourteen-zero tax id, while in the backend statistics of main.py lines
196 to 199 a key occurring in no operator row yields no row of the
inner-joined table, so its grouped total is excluded. -/
theorem c2_join_policies :
    (∀ (fin : List FinRow) (cad : List CadRow) (f : FinRow),
      f ∈ fin → (∀ c ∈ cad, c.key ≠ f.key) →
      enrichRow f none ∈ leftMerge fin cad ∧
      (enrichRow f none).razaoSocial = "Desconhecido" ∧
      (enrichRow f none).cnpj = "00000000000000") ∧
    (∀ (exp : List BackExpRow) (ops : List OpRow) (k : String),
      (∀ o ∈ ops, o.registro ≠ k) →
      ∀ s ∈ statRows exp ops, s.registro ≠ k) := by
  constructor
  · intro fin cad f hf hnm
    have hfilter : cad.filter (fun c => decide (c.key = f.key)) = [] := by
      rw [List.filter_eq_nil_iff]
      intro c hc
      simp [hnm c hc]
    refine ⟨?_, rfl, rfl⟩
    unfold leftMerge
    rw [List.mem_flatMap]
    refine ⟨f, hf, ?_⟩
    simp [hfilter]
  · intro exp ops k hk s hs
    unfold statRows at hs
    rw [List.mem_flatMap] at hs
    obtain ⟨p, hp, hs2⟩ := hs
    rw [List.mem_map] at hs2
    obtain ⟨o, ho, rfl⟩ := hs2
    rw [List.mem_filter] at ho
    have hop : o.registro = p.1 := by simpa using ho.2
    intro hkk
    exact hk o ho.1 (by rw [hop]; exact hkk)

/-- Financial batch for the C2 witness: one row keyed 99. -/
def c2Fin : List FinRow := [⟨some 99, 50⟩]

/-- Registry for the C2 witness: one operator keyed 1. -/
def c2Cad : List CadRow := [⟨some 1, some "11222333000181", some "Acme", some "SP"⟩]

/-- Backend expenses for the C2 witness: keys 1 and 99. -/
def c2Exp : List BackExpRow := [⟨"1", 50⟩, ⟨"99", 30⟩]

/-- Backend operators for the C2 witness: key 1 only. -/
def c2Ops : List OpRow := [⟨"1", "Acme", "SP"⟩]

/-- C2, witness: the unmatched key 99 is retained with sentinels by the
left merge, and the inner-joined statistics row that does exist carries a
key different from 99. -/
theorem c2_join_policies_witness :
    (enrichRow ⟨some 99, 50⟩ none ∈ leftMerge c2Fin c2Cad ∧
     (enrichRow ⟨some 99, 50⟩ none).razaoSocial = "Desconhecido" ∧
     (enrichRow ⟨some 99, 50⟩ none).cnpj = "00000000000000") ∧
    (⟨"1", 50, "Acme", "SP"⟩ : StatRow).registro ≠ "99" := by
  constructor
  · exact c2_join_policies.1 c2Fin c2Cad ⟨some 99, 50⟩ (by decide) (by decide)
  · exact c2_join_policies.2 c2Exp c2Ops "99" (by decide)
      ⟨"1", 50, "Acme", "SP"⟩ (by simp [statRows, aggPairs, dedupFirst, c2Exp, c2Ops])

/-- C3: the group standard deviation is the square root of the
Bessel-corrected sample variance (divisor one less than the count), a
single-member group gets standard deviation zero — the pandas NaN for a
count of one is filled with zero by enrichment.py line 155, never
surfacing — the singleton group with amount 100 aggregates to total 100,
mean 100, deviation 0, count 1, and the group 100, 200, 300 aggregates to
total 600, mean 200 and deviation 100 (the population divisor would give
a different value, so the examples pin the sample divisor). -/
theorem c3_sample_stddev :
    (∀ xs : List ℚ, xs.length = 1 → stdDevAmount xs = 0) ∧
    (totalAmount [100] = 100 ∧ meanAmount [100] = 100 ∧
      stdDevAmount [100] = 0 ∧ ([100] : List ℚ).length = 1) ∧
    (totalAmount [100, 200, 300] = 600 ∧ meanAmount [100, 200, 300] = 200 ∧
      stdDevAmount [100, 200, 300] = 100 ∧ ([100, 200, 300] : List ℚ).length = 3) := by
  have h1 : ∀ xs : List ℚ, xs.length = 1 → stdDevAmount xs = 0 := by
    intro xs h
    unfold stdDevAmount sampleVar
    rw [if_pos (by omega)]
    simp
  have hv : sampleVar [100, 200, 300] = 10000 := by
    unfold sampleVar meanAmount
    norm_num
  refine ⟨h1, ⟨by norm_num [totalAmount], by norm_num [meanAmount],
    h1 [100] rfl, rfl⟩,
    ⟨by norm_num [totalAmount], by norm_num [meanAmount], ?_, rfl⟩⟩
  unfold stdDevAmount
  rw [hv, show ((10000 : ℚ) : ℝ) = (100 : ℝ) ^ 2 by norm_num,
    Real.sqrt_sq (by norm_num)]

/-- C3, witness: the single-member case applied at a concrete group. -/
theorem c3_sample_stddev_witness : stdDevAmount [42] = 0 := by
  exact c3_sample_stddev.1 [42] rfl

/-- Aggregate group with key A and total 10. -/
def c9GroupA : AggGroup := ⟨"A", 10⟩

/-- Aggregate group with key B and total 10, tying with group A. -/
def c9GroupB : AggGroup := ⟨"B", 10⟩

/-- C9, counterexample.  The ranking steps sort by the total column alone
(enrichment.py line 157, main.py lines 202 and 205) with the pandas
default unstable quicksort, whose contract fixes only a permutation
weakly ordered by descending total.  That contract admits an output in
which two equal-total groups appear with keys in descending order,
refuting the claimed ascending-key tie-break and the claimed
determinism. -/
theorem c9_tie_counterexample :
    SortValuesDesc [c9GroupA, c9GroupB] [c9GroupB, c9GroupA] ∧
    ¬ TiesAscending [c9GroupB, c9GroupA] := by
  constructor
  · constructor
    · exact List.Perm.swap c9GroupB c9GroupA []
    · unfold SortedByTotalDesc
      decide
  · unfold TiesAscending
    decide

/-- C9, amended: ranking orders groups by total amount descending, and no
tie-break is enforced — for the two equal-total groups both relative
orders satisfy the contract the code fixes, so the tie order is left to
the underlying sort and the output is not determined by the sort key. -/
theorem c9_ranking_no_tiebreak :
    SortValuesDesc [c9GroupA, c9GroupB] [c9GroupA, c9GroupB] ∧
    SortValuesDesc [c9GroupA, c9GroupB] [c9GroupB, c9GroupA] ∧
    ([c9GroupB, c9GroupA] : List AggGroup) ≠ [c9GroupA, c9GroupB] := by
  refine ⟨⟨List.Perm.refl _, ?_⟩, ⟨List.Perm.swap c9GroupB c9GroupA [], ?_⟩, by decide⟩
  · unfold SortedByTotalDesc
    decide
  · unfold SortedByTotalDesc
    decide

/-- Enriched row with negative amount (an accounting reversal). -/
def c10Neg : EnrichedRow := ⟨some 1, -7, "A", "11222333000181", some "SP"⟩

/-- Enriched row with positive amount. -/
def c10Pos : EnrichedRow := ⟨some 2, 3, "B", "11222333000181", some "SP"⟩

/-- Enriched row with zero amount. -/
def c10Zero : EnrichedRow := ⟨some 3, 0, "C", "11222333000181", some "SP"⟩

/-- C10: the filter of enrichment.py line 145 keeps exactly the rows with
strictly positive amount, so every negative-amount record (and also every
zero-amount one) is excluded from the aggregation input; on a concrete
mixed list only the positive row survives. -/
theorem c10_strictly_positive :
    (∀ (rows : List EnrichedRow) (r : EnrichedRow),
      r ∈ filterPositive rows ↔ r ∈ rows ∧ 0 < r.valor) ∧
    (∀ (rows : List EnrichedRow) (r : EnrichedRow),
      r ∈ rows → r.valor < 0 → r ∉ filterPositive rows) ∧
    filterPositive [c10Neg, c10Pos, c10Zero] = [c10Pos] := by
  have hmem : ∀ (rows : List EnrichedRow) (r : EnrichedRow),
      r ∈ filterPositive rows ↔ r ∈ rows ∧ 0 < r.valor := by
    intro rows r
    unfold filterPositive
    rw [List.mem_filter]
    simp
  refine ⟨hmem, ?_, by decide⟩
  intro rows r hr hneg hmem2
  have hpos := ((hmem rows r).mp hmem2).2
  linarith

/-- C10, witness: the negative-amount row is excluded at a concrete
input. -/
theorem c10_strictly_positive_witness : c10Neg ∉ filterPositive [c10Neg] := by
  exact c10_strictly_positive.2.1 [c10Neg] c10Neg (by simp) (by decide)

end AnsEtl
